import Mathlib

/-
Verification of the slave actor of a two-level cluster resource manager
(src/slave/slave.cpp, src/slave/slave.hpp).

The slave's message handlers are embedded shallowly: each C++ handler
becomes a pure Lean function from the slave state (plus the inputs the
runtime supplies: the current time `elapsedTime()`, the sender `from()`,
the pid returned by the isolation module) to the new slave state together
with the ordered list of externally visible effects (messages sent,
isolation-module calls, links, reaper dispatches).

The `Framework` and `Executor` structs and the `Resources` class are
declared but not defined in the available sources (slave.hpp only forward
declares them); where a definition is needed it is modelled from the
spec, and its doc comment says so.

Machine integers: the statistics counters are uint64_t in the source;
they are modelled as Nat (no handler ever decrements or overflows them in
any claim under study).  Times (`double elapsedTime()`) are modelled as
Int ticks; the only operations the handlers perform on them are addition
of the retry interval and order comparison.
-/

namespace mesos

/-- Identifiers are short opaque strings (spec section 3). -/
abbrev FrameworkID := String

abbrev TaskID := String

abbrev ExecutorID := String

abbrev SlaveID := String

/-- An actor address (libprocess UPID).  The empty string models the
default-constructed `UPID()`, which is falsy in the source
(`!executor->pid`). -/
abbrev UPID := String

/-- Modelled from the spec: `common/resources.hpp` is not under src/.
Spec section 3 describes Resources as named typed quantities with
componentwise add, subtract and equality.  The slave's default
configuration carries the two scalar components `cpus` and `mem`
("cpus:1;mem:1024"); we model exactly those two named components, which
suffices for componentwise resource bookkeeping. -/
structure Resources where
  cpus : Int
  mem : Int
deriving DecidableEq

def Resources.zero : Resources := ⟨0, 0⟩

instance : Add Resources := ⟨fun a b => ⟨a.cpus + b.cpus, a.mem + b.mem⟩⟩

instance : Sub Resources := ⟨fun a b => ⟨a.cpus - b.cpus, a.mem - b.mem⟩⟩

/-- Task states (messages.proto / spec section 3): a task starts in
STAGING, may move through STARTING and RUNNING, and ends in one of the
four terminal states. -/
inductive TaskState where
  | TASK_STAGING
  | TASK_STARTING
  | TASK_RUNNING
  | TASK_FINISHED
  | TASK_FAILED
  | TASK_KILLED
  | TASK_LOST
deriving DecidableEq

/-- The four states the `switch` in `Slave::statusUpdate` treats as
terminal (TASK_FINISHED, TASK_FAILED, TASK_KILLED, TASK_LOST). -/
def TaskState.terminal : TaskState → Bool
  | .TASK_FINISHED => true
  | .TASK_FAILED => true
  | .TASK_KILLED => true
  | .TASK_LOST => true
  | _ => false

/-- The fields of ExecutorInfo the embedded handlers read:
`executor_id()` and `data()`. -/
structure ExecutorInfo where
  executor_id : ExecutorID
  data : String
deriving DecidableEq

/-- The fields of FrameworkInfo the embedded handlers read: its name and
its default executor. -/
structure FrameworkInfo where
  name : String
  executor : ExecutorInfo
deriving DecidableEq

/-- A task description as sent by the master in M2S_RUN_TASK: id, name,
resources and an optional per-task executor. -/
structure TaskDescription where
  task_id : TaskID
  name : String
  resources : Resources
  executor : Option ExecutorInfo
deriving DecidableEq

/-- A task record as stored in an executor's `tasks` map. -/
structure Task where
  task_id : TaskID
  framework_id : FrameworkID
  executor_id : ExecutorID
  name : String
  state : TaskState
  resources : Resources
deriving DecidableEq

/-- A task status as carried by E2S_STATUS_UPDATE / S2M_STATUS_UPDATE. -/
structure TaskStatus where
  task_id : TaskID
  slave_id : SlaveID
  state : TaskState
deriving DecidableEq

/-- The slave's SlaveInfo record (hostname and total resources; the
public hostname is omitted, no embedded handler reads it). -/
structure SlaveInfo where
  hostname : String
  resources : Resources
deriving DecidableEq

/-- Association-list lookup: the first binding of the key, mirroring map
lookup on the hashmaps of the source. -/
def lookupA {α β : Type} [DecidableEq α] : List (α × β) → α → Option β
  | [], _ => none
  | (k, v) :: rest, i => if k = i then some v else lookupA rest i

/-- Association-list update: replace the first binding of the key, or
append a new binding, mirroring `m[k] = v` on the maps of the source. -/
def updateA {α β : Type} [DecidableEq α] : List (α × β) → α → β → List (α × β)
  | [], i, v => [(i, v)]
  | (k, w) :: rest, i, v =>
      if k = i then (i, v) :: rest else (k, w) :: updateA rest i v

/-- Association-list erase: drop the first binding of the key, mirroring
`m.erase(k)` on the maps of the source. -/
def eraseA {α β : Type} [DecidableEq α] : List (α × β) → α → List (α × β)
  | [], _ => []
  | (k, w) :: rest, i => if k = i then rest else (k, w) :: eraseA rest i

/-- Modelled from the spec: the slave-local Executor struct (spec
section 3) is forward declared in slave.hpp but its definition is not
under src/.  `{framework_id, executor_id, info, actor_addr | none,
tasks, queued_tasks, resources}`, where `resources` is the sum over
`tasks` (not queued).  The directory field is omitted (no embedded
handler reads it). -/
structure Executor where
  frameworkId : FrameworkID
  info : ExecutorInfo
  pid : UPID
  tasks : List (TaskID × Task)
  queuedTasks : List TaskDescription
  resources : Resources
deriving DecidableEq

/-- Modelled from the spec: `Executor::addTask` is not under src/.  It
stores the task (in the non-terminal state STARTING) and adds the task's
resources to the executor's resource sum, keeping `resources` the sum
over `tasks`.  The master guarantees task ids are unique within a
framework (spec section 4.2 validation); a duplicate add leaves the
executor unchanged. -/
def Executor.addTask (e : Executor) (task : TaskDescription) : Executor :=
  if (lookupA e.tasks task.task_id).isSome then e
  else
    { e with
      tasks := e.tasks ++
        [(task.task_id,
          { task_id := task.task_id
            framework_id := e.frameworkId
            executor_id := e.info.executor_id
            name := task.name
            state := .TASK_STARTING
            resources := task.resources })]
      resources := e.resources + task.resources }

/-- Modelled from the spec: `Executor::removeTask` is not under src/.
On removal the task's resources are subtracted from the executor's
resource sum (spec section 4.4: "on terminal state subtract from
executor resources"). -/
def Executor.removeTask (e : Executor) (taskId : TaskID) : Executor :=
  match lookupA e.tasks taskId with
  | none => e
  | some t =>
      { e with
        tasks := eraseA e.tasks taskId
        resources := e.resources - t.resources }

/-- Modelled from the spec: `Executor::updateTaskState` is not under
src/.  It sets the stored task's state to the given state ("update local
task state", spec section 4.4). -/
def Executor.updateTaskState (e : Executor) (taskId : TaskID)
    (state : TaskState) : Executor :=
  match lookupA e.tasks taskId with
  | none => e
  | some t => { e with tasks := updateA e.tasks taskId { t with state := state } }

/-- Modelled from the spec: the slave-local Framework struct (spec
section 3 and 4.4) is forward declared in slave.hpp but its definition is
not under src/: executors keyed by executor id, and the pending-ack table
`statuses : map<deadline, map<TaskId, TaskStatus>>`.  Deadline buckets
are kept in insertion order; since the clock is monotone this coincides
with ascending deadline order of the C++ map. -/
structure Framework where
  frameworkId : FrameworkID
  info : FrameworkInfo
  pid : UPID
  executors : List (ExecutorID × Executor)
  statuses : List (Int × List (TaskID × TaskStatus))
deriving DecidableEq

/-- `Framework::getExecutor(const ExecutorID&)`: lookup by executor id
(modelled from the spec; the struct is not under src/). -/
def Framework.getExecutor (f : Framework) (executorId : ExecutorID) :
    Option Executor :=
  lookupA f.executors executorId

/-- `Framework::getExecutor(const TaskID&)`: the executor owning the
task, i.e. the first executor whose `tasks` map contains the task id
(modelled from the spec; the struct is not under src/). -/
def Framework.getExecutorByTaskId (f : Framework) (taskId : TaskID) :
    Option (ExecutorID × Executor) :=
  f.executors.find? (fun p => (lookupA p.2.tasks taskId).isSome)

/-- Modelled from the spec: `Framework::createExecutor` is not under
src/.  A new executor starts with no address, no tasks, no queued tasks
and an empty resource sum (an executor is created lazily when its first
task is dispatched, spec section 3). -/
def Framework.createExecutor (f : Framework) (einfo : ExecutorInfo) :
    Framework × Executor :=
  let e : Executor :=
    { frameworkId := f.frameworkId
      info := einfo
      pid := ""
      tasks := []
      queuedTasks := []
      resources := Resources.zero }
  ({ f with executors := f.executors ++ [(einfo.executor_id, e)] }, e)

/-- The `statistics` struct of Slave::initialize (uint64_t counters). -/
structure Statistics where
  launched_tasks : Nat
  finished_tasks : Nat
  killed_tasks : Nat
  failed_tasks : Nat
  lost_tasks : Nat
  valid_status_updates : Nat
  invalid_status_updates : Nat
  valid_framework_messages : Nat
  invalid_framework_messages : Nat
deriving DecidableEq

def Statistics.zero : Statistics := ⟨0, 0, 0, 0, 0, 0, 0, 0, 0⟩

/-- The messages the embedded handlers emit (messages.proto names in
comments). -/
inductive Msg where
  /-- S2M_REGISTER_SLAVE -/
  | registerSlave (info : SlaveInfo)
  /-- S2M_REREGISTER_SLAVE -/
  | reregisterSlave (slaveId : SlaveID) (info : SlaveInfo) (tasks : List Task)
  /-- S2M_STATUS_UPDATE -/
  | statusUpdateToMaster (frameworkId : FrameworkID) (status : TaskStatus)
  /-- S2M_EXITED_EXECUTOR -/
  | exitedExecutor (slaveId : SlaveID) (frameworkId : FrameworkID)
      (executorId : ExecutorID) (result : Int)
  /-- S2E_RUN_TASK -/
  | runTaskToExecutor (finfo : FrameworkInfo) (frameworkId : FrameworkID)
      (fpid : UPID) (task : TaskDescription)
  /-- S2E_KILL_TASK -/
  | killTaskToExecutor (frameworkId : FrameworkID) (taskId : TaskID)
  /-- S2E_REGISTER_REPLY with its ExecutorArgs -/
  | registerReplyToExecutor (frameworkId : FrameworkID)
      (executorId : ExecutorID) (slaveId : SlaveID) (hostname : String)
      (data : String)
  /-- S2E_KILL_EXECUTOR -/
  | killExecutorMsg
deriving DecidableEq

/-- The externally visible effects of one handler invocation, in
program order. -/
inductive Effect where
  /-- `send(to, msg)` -/
  | send (dest : UPID) (msg : Msg)
  /-- `link(to)` -/
  | link (dest : UPID)
  /-- `isolationModule->resourcesChanged(...)` -/
  | resourcesChanged (frameworkId : FrameworkID) (finfo : FrameworkInfo)
      (einfo : ExecutorInfo) (resources : Resources)
  /-- `isolationModule->launchExecutor(...)` -/
  | launchExecutor (frameworkId : FrameworkID) (finfo : FrameworkInfo)
      (einfo : ExecutorInfo) (directory : String)
  /-- `dispatch(reaper, &ExecutorReaper::reap, ...)` -/
  | reapMonitor (frameworkId : FrameworkID) (executorId : ExecutorID)
      (pid : Int)
  /-- `isolationModule->killExecutor(...)` -/
  | isolationKillExecutor (frameworkId : FrameworkID)
      (finfo : FrameworkInfo) (einfo : ExecutorInfo)
deriving DecidableEq

/-- The status-update retry interval, 10 seconds (slave.hpp line 25;
the .cpp refers to the same constant under the name
STATUS_UPDATE_RETRY_TIMEOUT). -/
def STATUS_UPDATE_RETRY_INTERVAL : Int := 10

def STATUS_UPDATE_RETRY_TIMEOUT : Int := STATUS_UPDATE_RETRY_INTERVAL

/-- The slave actor's state: `{slaveId, slave info, master address,
frameworks, statistics}` (slave.cpp; the configuration, isolation-module
pointer and start time are external and carry no handler-visible
state). -/
structure Slave where
  slaveId : SlaveID
  slave : SlaveInfo
  master : UPID
  frameworks : List (FrameworkID × Framework)
  statistics : Statistics
deriving DecidableEq

/-- `Slave::getFramework`: the framework with the given id, or none. -/
def Slave.getFramework (s : Slave) (frameworkId : FrameworkID) :
    Option Framework :=
  lookupA s.frameworks frameworkId

/-- `framework->statuses[deadline][task_id] = status` on the pending-ack
table. -/
def recordStatus (statuses : List (Int × List (TaskID × TaskStatus)))
    (deadline : Int) (taskId : TaskID) (status : TaskStatus) :
    List (Int × List (TaskID × TaskStatus)) :=
  match lookupA statuses deadline with
  | none => statuses ++ [(deadline, [(taskId, status)])]
  | some bucket => updateA statuses deadline (updateA bucket taskId status)

/-- Every task stored in the slave's executors, in iteration order
(frameworks, then executors, then tasks), as collected by the
reregistration loop of `Slave::newMasterDetected`. -/
def Slave.allTasks (s : Slave) : List Task :=
  (s.frameworks.map
    (fun p => (p.2.executors.map (fun q => q.2.tasks.map (·.2))).flatten)).flatten

/-- `Slave::newMasterDetected`: link to the new master; if the slave id
is unset send S2M_REGISTER_SLAVE, otherwise S2M_REREGISTER_SLAVE with
every task held in the executors' task maps (slave.cpp lines 394-422). -/
def Slave.newMasterDetected (s : Slave) (pid : UPID) : Slave × List Effect :=
  let s := { s with master := pid }
  if s.slaveId = "" then
    (s, [.link pid, .send pid (.registerSlave s.slave)])
  else
    (s, [.link pid, .send pid (.reregisterSlave s.slaveId s.slave s.allTasks)])

/-- `Slave::registerReply` (M2S_REGISTER_REPLY): adopt the slave id the
master assigned. -/
def Slave.registerReply (s : Slave) (slaveId : SlaveID) : Slave :=
  { s with slaveId := slaveId }

/-- The per-state statistics counter bumped by the switch of
`Slave::statusUpdate` (finished, failed, killed and lost tasks; the
other states touch no counter). -/
def bumpTaskCounter (state : TaskState) (st : Statistics) : Statistics :=
  match state with
  | .TASK_FINISHED => { st with finished_tasks := st.finished_tasks + 1 }
  | .TASK_FAILED => { st with failed_tasks := st.failed_tasks + 1 }
  | .TASK_KILLED => { st with killed_tasks := st.killed_tasks + 1 }
  | .TASK_LOST => { st with lost_tasks := st.lost_tasks + 1 }
  | _ => st

/-- `Slave::statusUpdate` (slave.cpp lines 714-776).  Takes the current
time `now` (the source's `elapsedTime()`). -/
def Slave.statusUpdate (s : Slave) (now : Int) (frameworkId : FrameworkID)
    (status : TaskStatus) : Slave × List Effect :=
  match s.getFramework frameworkId with
  | some framework =>
    match framework.getExecutorByTaskId status.task_id with
    | some (executorId, executor) =>
      let executor := executor.updateTaskState status.task_id status.state
      -- The switch on status.state(): on a terminal state bump the
      -- matching counter, remove the task and tell the isolation module.
      let executor :=
        if status.state.terminal then executor.removeTask status.task_id
        else executor
      let effects :=
        if status.state.terminal then
          [Effect.resourcesChanged frameworkId framework.info executor.info
            executor.resources]
        else []
      let framework :=
        { framework with
          executors := updateA framework.executors executorId executor
          statuses := recordStatus framework.statuses
            (now + STATUS_UPDATE_RETRY_TIMEOUT) status.task_id status }
      let statistics := bumpTaskCounter status.state s.statistics
      ({ s with
          frameworks := updateA s.frameworks frameworkId framework
          statistics :=
            { statistics with
              valid_status_updates := statistics.valid_status_updates + 1 } },
       effects ++ [Effect.send s.master (.statusUpdateToMaster frameworkId status)])
    | none =>
      ({ s with
          statistics :=
            { s.statistics with
              invalid_status_updates := s.statistics.invalid_status_updates + 1 } },
       [])
  | none =>
    ({ s with
        statistics :=
          { s.statistics with
            invalid_status_updates := s.statistics.invalid_status_updates + 1 } },
     [])

/-- `Slave::statusUpdateAck` inner loop (slave.cpp lines 649-657): scan
the deadline buckets in order, erase the task from the first bucket
containing it, then break. -/
def ackStatuses : List (Int × List (TaskID × TaskStatus)) → TaskID →
    List (Int × List (TaskID × TaskStatus))
  | [], _ => []
  | (d, bucket) :: rest, taskId =>
      if (lookupA bucket taskId).isSome then (d, eraseA bucket taskId) :: rest
      else (d, bucket) :: ackStatuses rest taskId

/-- `Slave::statusUpdateAck` (slave.cpp lines 643-659).  The slave id
argument of the message is unused by the handler body. -/
def Slave.statusUpdateAck (s : Slave) (frameworkId : FrameworkID)
    (_slaveId : SlaveID) (taskId : TaskID) : Slave :=
  match s.getFramework frameworkId with
  | none => s
  | some framework =>
      { s with
        frameworks := updateA s.frameworks frameworkId
          { framework with statuses := ackStatuses framework.statuses taskId } }

/-- The loop of `Slave::sendQueuedTasks`: add each queued task to the
executor and send it an S2E_RUN_TASK, in queue order. -/
def flushTasks (finfo : FrameworkInfo) (frameworkId : FrameworkID)
    (fpid : UPID) (epid : UPID) :
    Executor → List TaskDescription → Executor × List Effect
  | e, [] => (e, [])
  | e, task :: rest =>
      let step := flushTasks finfo frameworkId fpid epid (e.addTask task) rest
      (step.1,
       Effect.send epid (.runTaskToExecutor finfo frameworkId fpid task) :: step.2)

/-- `Slave::sendQueuedTasks` (slave.cpp lines 1025-1045): flush the
queued tasks to the now-registered executor and clear the queue. -/
def Slave.sendQueuedTasks (finfo : FrameworkInfo) (frameworkId : FrameworkID)
    (fpid : UPID) (executor : Executor) : Executor × List Effect :=
  let step := flushTasks finfo frameworkId fpid executor.pid executor
    executor.queuedTasks
  ({ step.1 with queuedTasks := [] }, step.2)

/-- `Slave::registerExecutor` (slave.cpp lines 662-711).  `sender` is
the source's `from()`. -/
def Slave.registerExecutor (s : Slave) (sender : UPID)
    (frameworkId : FrameworkID) (executorId : ExecutorID) :
    Slave × List Effect :=
  match s.getFramework frameworkId with
  | none => (s, [.send sender .killExecutorMsg])
  | some framework =>
    match framework.getExecutor executorId with
    | none => (s, [.send sender .killExecutorMsg])
    | some executor =>
      if executor.pid ≠ "" then (s, [.send sender .killExecutorMsg])
      else
        let executor := { executor with pid := sender }
        -- resourcesChanged is called before the queued tasks are
        -- flushed, so it sees the pre-flush resource sum.
        let flushed := Slave.sendQueuedTasks framework.info
          framework.frameworkId framework.pid executor
        ({ s with
            frameworks := updateA s.frameworks frameworkId
              { framework with
                executors := updateA framework.executors executorId flushed.1 } },
         [Effect.resourcesChanged framework.frameworkId framework.info
            executor.info executor.resources,
          Effect.send sender
            (.registerReplyToExecutor framework.frameworkId
              executor.info.executor_id s.slaveId s.slave.hostname
              framework.info.executor.data)] ++ flushed.2)

/-- The work directory of `Slave::getUniqueWorkDirectory` without the
filesystem uniqueness probe (the opendir loop is external I/O; the probe
starts at suffix 0, which we use). -/
def workDirectory (slaveId : SlaveID) (frameworkId : FrameworkID)
    (executorId : ExecutorID) : String :=
  "./work/slave-" ++ slaveId ++ "/fw-" ++ frameworkId ++ "-" ++ executorId ++ "/0"

/-- The framework `Slave::runTask` works on: the existing entry, or a
fresh one created from the message (slave.cpp lines 456-460). -/
def Slave.runTaskFramework (s : Slave) (frameworkInfo : FrameworkInfo)
    (frameworkId : FrameworkID) (pid : UPID) : Framework :=
  match s.getFramework frameworkId with
  | some f => f
  | none =>
      { frameworkId := frameworkId
        info := frameworkInfo
        pid := pid
        executors := []
        statuses := [] }

/-- The executor information `Slave::runTask` selects: the task's own
executor if set, else the framework's default executor (slave.cpp lines
464-466 and 487-491). -/
def selectedExecutorInfo (framework : Framework) (task : TaskDescription) :
    ExecutorInfo :=
  match task.executor with
  | some einfo => einfo
  | none => framework.info.executor

/-- `Slave::runTask` (slave.cpp lines 448-523).  `launchedPid` is the
pid the isolation module returns from `launchExecutor` (0 means the
reaper is not asked to monitor it). -/
def Slave.runTask (s : Slave) (frameworkInfo : FrameworkInfo)
    (frameworkId : FrameworkID) (pid : UPID) (task : TaskDescription)
    (launchedPid : Int) : Slave × List Effect :=
  let framework := s.runTaskFramework frameworkInfo frameworkId pid
  match framework.getExecutor (selectedExecutorInfo framework task).executor_id with
  | some executor =>
    if executor.pid = "" then
      -- Queue task until the executor starts up.
      let executor := { executor with queuedTasks := executor.queuedTasks ++ [task] }
      let framework :=
        { framework with
          executors := updateA framework.executors executor.info.executor_id executor }
      ({ s with frameworks := updateA s.frameworks frameworkId framework }, [])
    else
      -- Add the task to the executor and forward it.
      let executor := executor.addTask task
      let framework :=
        { framework with
          executors := updateA framework.executors executor.info.executor_id executor }
      ({ s with frameworks := updateA s.frameworks frameworkId framework },
       [Effect.send executor.pid
          (.runTaskToExecutor framework.info framework.frameworkId framework.pid task),
        Effect.resourcesChanged framework.frameworkId framework.info
          executor.info executor.resources])
  | none =>
    -- Launch an executor for this task and queue the task.
    let einfo := selectedExecutorInfo framework task
    let created := framework.createExecutor einfo
    let executor := { created.2 with queuedTasks := [task] }
    let framework :=
      { created.1 with
        executors := updateA created.1.executors einfo.executor_id executor }
    let directory := workDirectory s.slaveId framework.frameworkId
      einfo.executor_id
    ({ s with frameworks := updateA s.frameworks frameworkId framework },
     [Effect.launchExecutor framework.frameworkId framework.info einfo directory] ++
       (if launchedPid ≠ 0 then
          [Effect.reapMonitor framework.frameworkId einfo.executor_id launchedPid]
        else []))

/-- `Slave::killTask` (slave.cpp lines 526-578).  The first component is
`none` when the handler dereferences a null pointer: the source enters
the branch `executor == NULL || !executor->pid` and immediately calls
`executor->removeTask` even when `executor == NULL`, and in the
unknown-framework branch it writes `framework->statuses[...]` after
establishing `framework == NULL`; effects emitted before the
dereference are kept. -/
def Slave.killTask (s : Slave) (now : Int) (frameworkId : FrameworkID)
    (taskId : TaskID) : Option Slave × List Effect :=
  match s.getFramework frameworkId with
  | some framework =>
    match framework.getExecutorByTaskId taskId with
    | none =>
        -- executor == NULL: the branch dereferences executor->removeTask.
        (none, [])
    | some (executorId, executor) =>
      if executor.pid = "" then
        let executor := executor.removeTask taskId
        let status : TaskStatus :=
          { task_id := taskId, slave_id := s.slaveId, state := .TASK_LOST }
        let framework' :=
          { framework with
            executors := updateA framework.executors executorId executor
            statuses := recordStatus framework.statuses
              (now + STATUS_UPDATE_RETRY_TIMEOUT) taskId status }
        (some { s with frameworks := updateA s.frameworks frameworkId framework' },
         [Effect.resourcesChanged framework.frameworkId framework.info
            executor.info executor.resources,
          Effect.send s.master (.statusUpdateToMaster frameworkId status)])
      else
        (some s, [Effect.send executor.pid (.killTaskToExecutor frameworkId taskId)])
  | none =>
    -- The status update is built and sent, then the handler writes
    -- framework->statuses through the null framework pointer.
    let status : TaskStatus :=
      { task_id := taskId, slave_id := s.slaveId, state := .TASK_LOST }
    (none, [Effect.send s.master (.statusUpdateToMaster frameworkId status)])

/-- One framework's resends in `Slave::timeout`: every status in every
bucket whose deadline has passed. -/
def resendForFramework (master : UPID) (now : Int) (f : Framework) :
    List Effect :=
  (f.statuses.map (fun q =>
    if q.1 ≤ now then
      q.2.map (fun r => Effect.send master (.statusUpdateToMaster f.frameworkId r.2))
    else [])).flatten

/-- `Slave::timeout` (slave.cpp lines 813-831): resend every status
whose deadline has passed; the state (deadlines included) is not
modified. -/
def Slave.timeout (s : Slave) (now : Int) : Slave × List Effect :=
  (s, (s.frameworks.map (fun p => resendForFramework s.master now p.2)).flatten)

/-- `Slave::executorExited` (slave.cpp lines 1080-1118): for a known
framework and executor, report S2M_EXITED_EXECUTOR to the master, ask
the isolation module to kill the executor, destroy the executor entity,
and when the framework has no executors left remove the framework (via
`killFramework`, which at that point has no executors to iterate). -/
def Slave.executorExited (s : Slave) (frameworkId : FrameworkID)
    (executorId : ExecutorID) (result : Int) : Slave × List Effect :=
  match s.getFramework frameworkId with
  | none => (s, [])
  | some framework =>
    match framework.getExecutor executorId with
    | none => (s, [])
    | some executor =>
      let framework' :=
        { framework with executors := eraseA framework.executors executorId }
      let s' :=
        if framework'.executors = [] then
          { s with frameworks := eraseA s.frameworks frameworkId }
        else
          { s with frameworks := updateA s.frameworks frameworkId framework' }
      (s', [Effect.send s.master
              (.exitedExecutor s.slaveId frameworkId executorId result),
            Effect.isolationKillExecutor frameworkId framework.info executor.info])

/-- The componentwise sum of the resources of the tasks in a task map
(spec section 3: "`resources` is the sum over `tasks`"). -/
def sumResources : List (TaskID × Task) → Resources
  | [] => Resources.zero
  | p :: rest => p.2.resources + sumResources rest

/-- Whether an effect is a call to `isolationModule->resourcesChanged`. -/
def Effect.isResourcesChanged : Effect → Bool
  | .resourcesChanged _ _ _ _ => true
  | _ => false

/-- Whether an effect is an S2M_STATUS_UPDATE message send. -/
def Effect.isStatusUpdateSend : Effect → Bool
  | .send _ (.statusUpdateToMaster _ _) => true
  | _ => false

/-- An executor-local property holding of every executor of every
framework of the slave. -/
def execInv (P : Executor → Prop) (s : Slave) : Prop :=
  ∀ fw ∈ s.frameworks, ∀ ex ∈ fw.2.executors, P ex.2

/-- The freshly constructed slave: no id, no frameworks, zeroed
statistics (Slave::Slave / Slave::initialize). -/
def Slave.initial (info : SlaveInfo) : Slave :=
  { slaveId := ""
    slave := info
    master := ""
    frameworks := []
    statistics := Statistics.zero }

/-- The slave states reachable from a freshly started slave by the
embedded handlers (a `killTask` step contributes only when the source
handler completes without a null dereference). -/
inductive Reachable : Slave → Prop where
  | init (info : SlaveInfo) : Reachable (Slave.initial info)
  | newMasterDetected {s : Slave} (pid : UPID) :
      Reachable s → Reachable (Slave.newMasterDetected s pid).1
  | registerReply {s : Slave} (slaveId : SlaveID) :
      Reachable s → Reachable (Slave.registerReply s slaveId)
  | runTask {s : Slave} (finfo : FrameworkInfo) (fid : FrameworkID)
      (pid : UPID) (task : TaskDescription) (launchedPid : Int) :
      Reachable s → Reachable (Slave.runTask s finfo fid pid task launchedPid).1
  | registerExecutor {s : Slave} (sender : UPID) (fid : FrameworkID)
      (eid : ExecutorID) :
      Reachable s → Reachable (Slave.registerExecutor s sender fid eid).1
  | statusUpdate {s : Slave} (now : Int) (fid : FrameworkID)
      (status : TaskStatus) :
      Reachable s → Reachable (Slave.statusUpdate s now fid status).1
  | statusUpdateAck {s : Slave} (fid : FrameworkID) (slaveId : SlaveID)
      (tid : TaskID) :
      Reachable s → Reachable (Slave.statusUpdateAck s fid slaveId tid)
  | killTask {s s' : Slave} (now : Int) (fid : FrameworkID) (tid : TaskID)
      (effects : List Effect) :
      Reachable s → Slave.killTask s now fid tid = (some s', effects) →
      Reachable s'
  | timeout {s : Slave} (now : Int) :
      Reachable s → Reachable (Slave.timeout s now).1
  | executorExited {s : Slave} (fid : FrameworkID) (eid : ExecutorID)
      (result : Int) :
      Reachable s → Reachable (Slave.executorExited s fid eid result).1

/-- Example executor info, framework info and task used by the concrete
counterexample and witness states below. -/
def exInfo : ExecutorInfo := { executor_id := "E", data := "edata" }

def exFrameworkInfo : FrameworkInfo := { name := "fw", executor := exInfo }

def exTaskDescription : TaskDescription :=
  { task_id := "t1", name := "task1", resources := ⟨1, 512⟩, executor := none }

def exTaskDescription2 : TaskDescription :=
  { task_id := "t2", name := "task2", resources := ⟨1, 256⟩, executor := none }

def exSlaveInfo : SlaveInfo := { hostname := "host", resources := ⟨2, 1024⟩ }

/-- A slave with one framework whose retry table holds one status under
deadline 2 (used against the TIMEOUT handler). -/
def exStatusRunning : TaskStatus :=
  { task_id := "t1", slave_id := "S", state := .TASK_RUNNING }

def exSlaveC2 : Slave :=
  { slaveId := "S"
    slave := exSlaveInfo
    master := "M"
    frameworks := [("F",
      { frameworkId := "F"
        info := exFrameworkInfo
        pid := "fpid"
        executors := []
        statuses := [(2, [("t1", exStatusRunning)])] })]
    statistics := Statistics.zero }

/-- A slave whose framework has retry entries for the same task under
two distinct deadlines (used against the ack handler). -/
def exStatusFinished : TaskStatus :=
  { task_id := "t1", slave_id := "S", state := .TASK_FINISHED }

def exSlaveC3 : Slave :=
  { slaveId := "S"
    slave := exSlaveInfo
    master := "M"
    frameworks := [("F",
      { frameworkId := "F"
        info := exFrameworkInfo
        pid := "fpid"
        executors := []
        statuses := [(2, [("t1", exStatusRunning)]),
                     (6, [("t1", exStatusFinished)])] })]
    statistics := Statistics.zero }

/-- A slave with no frameworks at all (used against `runTask` and the
unknown-framework branch of `killTask`). -/
def exSlaveEmpty : Slave :=
  { slaveId := "S"
    slave := exSlaveInfo
    master := "M"
    frameworks := []
    statistics := Statistics.zero }

/-- A slave with one registered executor running one task (used against
`executorExited`) . -/
def exTaskRunning : Task :=
  { task_id := "t1", framework_id := "F", executor_id := "E"
    name := "task1", state := .TASK_RUNNING, resources := ⟨1, 512⟩ }

def exExecutorC6 : Executor :=
  { frameworkId := "F"
    info := exInfo
    pid := "epid"
    tasks := [("t1", exTaskRunning)]
    queuedTasks := []
    resources := ⟨1, 512⟩ }

def exFrameworkC6 : Framework :=
  { frameworkId := "F"
    info := exFrameworkInfo
    pid := "fpid"
    executors := [("E", exExecutorC6)]
    statuses := [] }

def exSlaveC6 : Slave :=
  { slaveId := "S"
    slave := exSlaveInfo
    master := "M"
    frameworks := [("F", exFrameworkC6)]
    statistics := Statistics.zero }

/-- A slave whose framework has an executor that has not yet registered
(no address) and one queued task (used against `registerExecutor`). -/
def exExecutorC4 : Executor :=
  { frameworkId := "F"
    info := exInfo
    pid := ""
    tasks := []
    queuedTasks := [exTaskDescription]
    resources := Resources.zero }

def exFrameworkC4 : Framework :=
  { frameworkId := "F"
    info := exFrameworkInfo
    pid := "fpid"
    executors := [("E", exExecutorC4)]
    statuses := [] }

def exSlaveC4 : Slave :=
  { slaveId := "S"
    slave := exSlaveInfo
    master := "M"
    frameworks := [("F", exFrameworkC4)]
    statistics := Statistics.zero }

/-- A slave with one registered executor owning no tasks (used against
the no-owning-executor branch of `killTask`). -/
def exSlaveC10 : Slave :=
  { slaveId := "S"
    slave := exSlaveInfo
    master := "M"
    frameworks := [("F",
      { frameworkId := "F"
        info := exFrameworkInfo
        pid := "fpid"
        executors := [("E",
          { frameworkId := "F"
            info := exInfo
            pid := "epid"
            tasks := []
            queuedTasks := []
            resources := Resources.zero })]
        statuses := [] })]
    statistics := Statistics.zero }

/-- A state reached from a fresh slave by queueing a task (creating
framework "F" and executor "E") and then registering the executor, which
flushes the queued task into the task set. -/
def exSlaveC9 : Slave :=
  (Slave.registerExecutor
    (Slave.runTask (Slave.initial exSlaveInfo) exFrameworkInfo "F" "fpid"
      exTaskDescription 7).1
    "epid" "F" "E").1

/-- The executor of `exSlaveC9` after the flush: it runs task "t1" and
its resource sum equals that task's resources. -/
def exExecutorC9 : Executor :=
  { frameworkId := "F"
    info := exInfo
    pid := "epid"
    tasks := [("t1",
      { task_id := "t1"
        framework_id := "F"
        executor_id := "E"
        name := "task1"
        state := .TASK_STARTING
        resources := ⟨1, 512⟩ })]
    queuedTasks := []
    resources := ⟨1, 512⟩ }

def exFrameworkC9 : Framework :=
  { frameworkId := "F"
    info := exFrameworkInfo
    pid := "fpid"
    executors := [("E", exExecutorC9)]
    statuses := [] }

/-- `exSlaveC9` after the master assigns slave id "S" (so a later
new_master_detected re-registers instead of registering). -/
def exSlaveC8 : Slave := Slave.registerReply exSlaveC9 "S"

theorem Resources.add_def (a b : Resources) :
    a + b = ⟨a.cpus + b.cpus, a.mem + b.mem⟩ := rfl

theorem Resources.sub_def (a b : Resources) :
    a - b = ⟨a.cpus - b.cpus, a.mem - b.mem⟩ := rfl

theorem Resources.add_sub_cancel_left (a b : Resources) : (a + b) - a = b := by
  cases a
  cases b
  simp [Resources.add_def, Resources.sub_def]

theorem Resources.add_sub_assoc (a b c : Resources) :
    a + (b - c) = (a + b) - c := by
  cases a
  cases b
  cases c
  simp [Resources.add_def, Resources.sub_def]
  omega

theorem Resources.add_sub_swap (a b c : Resources) :
    (a + b) - c = (a - c) + b := by
  cases a
  cases b
  cases c
  simp [Resources.add_def, Resources.sub_def]
  omega

theorem lookupA_mem {α β : Type} [DecidableEq α] {l : List (α × β)} {k : α}
    {v : β} (h : lookupA l k = some v) : (k, v) ∈ l := by
  induction l with
  | nil => simp [lookupA] at h
  | cons p rest ih =>
    rw [show p = (p.1, p.2) from rfl, lookupA] at h
    by_cases hk : p.1 = k
    · simp [hk] at h
      simp [← hk, ← h]
    · simp [hk] at h
      exact List.mem_cons_of_mem _ (ih h)

theorem lookupA_updateA_self {α β : Type} [DecidableEq α]
    (l : List (α × β)) (k : α) (v : β) : lookupA (updateA l k v) k = some v := by
  induction l with
  | nil => simp [updateA, lookupA]
  | cons p rest ih =>
    rw [show p = (p.1, p.2) from rfl, updateA]
    by_cases hk : p.1 = k
    · simp [hk, lookupA]
    · simp [hk, lookupA, ih]

theorem lookupA_updateA_of_ne {α β : Type} [DecidableEq α]
    (l : List (α × β)) (k k' : α) (v : β) (h : k' ≠ k) :
    lookupA (updateA l k v) k' = lookupA l k' := by
  have hne : ¬ k = k' := fun he => h he.symm
  induction l with
  | nil => simp [updateA, lookupA, hne]
  | cons p rest ih =>
    obtain ⟨a, b⟩ := p
    by_cases hk : a = k
    · simp [updateA, hk, lookupA, hne]
    · simp [updateA, hk, lookupA, ih]

theorem lookupA_append_of_none {α β : Type} [DecidableEq α]
    {l : List (α × β)} (m : List (α × β)) {k : α}
    (h : lookupA l k = none) : lookupA (l ++ m) k = lookupA m k := by
  induction l with
  | nil => simp
  | cons p rest ih =>
    rw [show p = (p.1, p.2) from rfl, lookupA] at h
    by_cases hk : p.1 = k
    · simp [hk] at h
    · rw [show p = (p.1, p.2) from rfl, List.cons_append, lookupA]
      simp only [hk, if_false]
      exact ih (by simpa [hk] using h)

theorem mem_updateA {α β : Type} [DecidableEq α]
    {l : List (α × β)} {k : α} {v : β} {x : α × β}
    (h : x ∈ updateA l k v) : x ∈ l ∨ x = (k, v) := by
  induction l with
  | nil => simp [updateA] at h; simp [h]
  | cons p rest ih =>
    rw [show p = (p.1, p.2) from rfl, updateA] at h
    by_cases hk : p.1 = k
    · simp [hk] at h
      rcases h with h | h
      · right; simp [h]
      · left; exact List.mem_cons_of_mem _ h
    · simp [hk] at h
      rcases h with h | h
      · left; simp [h]
      · rcases ih h with h' | h'
        · left; exact List.mem_cons_of_mem _ h'
        · right; exact h'

theorem mem_eraseA {α β : Type} [DecidableEq α]
    {l : List (α × β)} {k : α} {x : α × β}
    (h : x ∈ eraseA l k) : x ∈ l := by
  induction l with
  | nil => simp [eraseA] at h
  | cons p rest ih =>
    rw [show p = (p.1, p.2) from rfl, eraseA] at h
    by_cases hk : p.1 = k
    · simp [hk] at h
      exact List.mem_cons_of_mem _ h
    · simp [hk] at h
      rcases h with h | h
      · simp [h]
      · exact List.mem_cons_of_mem _ (ih h)

theorem mem_eraseA_updateA {α β : Type} [DecidableEq α]
    {l : List (α × β)} {k : α} {v : β} {x : α × β}
    (h : x ∈ eraseA (updateA l k v) k) : x ∈ l := by
  induction l with
  | nil => simp [updateA, eraseA] at h
  | cons p rest ih =>
    obtain ⟨a, b⟩ := p
    by_cases hk : a = k
    · simp only [updateA, hk, if_pos rfl, eraseA] at h
      simp at h
      exact List.mem_cons_of_mem _ h
    · simp [updateA, eraseA, hk] at h
      rcases h with h' | h'
      · simp [h']
      · exact List.mem_cons_of_mem _ (ih h')

theorem flatten_map_ite {α β : Type} (l : List α) (p : α → Prop)
    [DecidablePred p] (f : α → List β) :
    (l.map (fun q => if p q then f q else [])).flatten =
      ((l.filter (fun q => decide (p q))).map f).flatten := by
  induction l with
  | nil => rfl
  | cons a rest ih =>
    by_cases hp : p a
    · simp [hp, ih]
    · simp [hp, ih]

/-- C2 counterexample: in the state `exSlaveC2` whose single retry entry
sits under deadline 2, handling TIMEOUT at time 5 does resend the status
(2 ≤ 5), but afterwards the only deadline bucket is still 2: it was not
reset to now + retry_interval = 15, contradicting the claim. -/
theorem timeout_does_not_reset_deadline :
    (Slave.timeout exSlaveC2 5).2 =
      [Effect.send "M" (.statusUpdateToMaster "F" exStatusRunning)] ∧
    (Slave.timeout exSlaveC2 5).1 = exSlaveC2 ∧
    ((Slave.timeout exSlaveC2 5).1.frameworks.map
      (fun p => p.2.statuses.map Prod.fst)) = [[2]] ∧
    (5 : Int) + STATUS_UPDATE_RETRY_INTERVAL = 15 := by decide

/-- C2 (amended): on every TIMEOUT the slave resends to the master, in
iteration order, every recorded status whose deadline is ≤ now — but the
state, and in particular every deadline, is left unchanged (the retry
interval constant is 10 seconds). -/
theorem timeout_resends_and_keeps_deadlines (s : Slave) (now : Int) :
    (Slave.timeout s now).1 = s ∧
    (Slave.timeout s now).2 =
      (s.frameworks.map (fun p =>
        ((p.2.statuses.filter (fun q => decide (q.1 ≤ now))).map (fun q =>
          q.2.map (fun r =>
            Effect.send s.master
              (.statusUpdateToMaster p.2.frameworkId r.2)))).flatten)).flatten ∧
    STATUS_UPDATE_RETRY_INTERVAL = 10 := by
  refine ⟨rfl, ?_, rfl⟩
  simp only [Slave.timeout, resendForFramework, flatten_map_ite]

theorem ackStatuses_skips_clean_buckets
    {tid : TaskID} (pre : List (Int × List (TaskID × TaskStatus)))
    (rest : List (Int × List (TaskID × TaskStatus)))
    (hpre : ∀ q ∈ pre, lookupA q.2 tid = none) :
    ackStatuses (pre ++ rest) tid = pre ++ ackStatuses rest tid := by
  induction pre with
  | nil => rfl
  | cons q pre' ih =>
    obtain ⟨d, b⟩ := q
    have hb : lookupA b tid = none := hpre (d, b) (List.mem_cons_self _ _)
    simp only [List.cons_append, ackStatuses, hb, Option.isSome_none,
      Bool.false_eq_true, if_false, List.cons.injEq, true_and]
    exact ih (fun q hq => hpre q (List.mem_cons_of_mem _ hq))

theorem ackStatuses_no_bucket
    {tid : TaskID} (l : List (Int × List (TaskID × TaskStatus)))
    (h : ∀ q ∈ l, lookupA q.2 tid = none) :
    ackStatuses l tid = l := by
  have := ackStatuses_skips_clean_buckets l [] h
  simpa [ackStatuses] using this

/-- C3 counterexample: in `exSlaveC3` the framework's retry table holds
entries for task "t1" under the two deadlines 2 and 6.  After the ack
the entry under deadline 6 is still present (only the first bucket was
cleared before the loop breaks), contradicting the claim that no
deadline bucket contains the task afterwards. -/
theorem statusUpdateAck_leaves_later_entry :
    ((Slave.statusUpdateAck exSlaveC3 "F" "S" "t1").getFramework "F").map
        (fun f => f.statuses) =
      some [(2, []), (6, [("t1", exStatusFinished)])] := by decide

/-- C3 (amended): for a known framework the ack handler deletes the
task's entry from the first deadline bucket (in table order) that
contains it and leaves every other bucket — including later buckets
that still hold entries for the same task — unchanged; if no bucket
contains the task, or the framework is unknown, nothing changes. -/
theorem statusUpdateAck_erases_first_only (s : Slave) (fid : FrameworkID)
    (sid : SlaveID) (tid : TaskID) :
    (s.getFramework fid = none → Slave.statusUpdateAck s fid sid tid = s) ∧
    (∀ f, s.getFramework fid = some f →
      (∀ pre d b post,
        f.statuses = pre ++ (d, b) :: post →
        (∀ q ∈ pre, lookupA q.2 tid = none) →
        (lookupA b tid).isSome = true →
        (Slave.statusUpdateAck s fid sid tid).getFramework fid =
          some { f with statuses := pre ++ (d, eraseA b tid) :: post }) ∧
      ((∀ q ∈ f.statuses, lookupA q.2 tid = none) →
        (Slave.statusUpdateAck s fid sid tid).getFramework fid = some f)) := by
  constructor
  · intro hnone
    simp [Slave.statusUpdateAck, hnone]
  · intro f hf
    have hf' : lookupA s.frameworks fid = some f := hf
    constructor
    · intro pre d b post hsplit hpre hb
      simp only [Slave.statusUpdateAck, Slave.getFramework, hf',
        lookupA_updateA_self, Option.some.injEq]
      rw [hsplit, ackStatuses_skips_clean_buckets pre _ hpre]
      simp [ackStatuses, hb]
    · intro hclean
      simp only [Slave.statusUpdateAck, Slave.getFramework, hf',
        lookupA_updateA_self, Option.some.injEq]
      rw [ackStatuses_no_bucket _ hclean]

/-- C3 witness: the amended theorem applied to `exSlaveC3`, whose first
bucket (deadline 2) holds "t1"; the resulting table keeps the entry
under deadline 6. -/
theorem statusUpdateAck_erases_first_only_witness :
    (Slave.statusUpdateAck exSlaveC3 "F" "S" "t1").getFramework "F" =
      some { frameworkId := "F", info := exFrameworkInfo, pid := "fpid"
             executors := []
             statuses := [(2, []), (6, [("t1", exStatusFinished)])] } := by
  have h := ((statusUpdateAck_erases_first_only exSlaveC3 "F" "S" "t1").2
    { frameworkId := "F", info := exFrameworkInfo, pid := "fpid"
      executors := []
      statuses := [(2, [("t1", exStatusRunning)]),
                   (6, [("t1", exStatusFinished)])] } (by decide)).1
    [] 2 [("t1", exStatusRunning)] [(6, [("t1", exStatusFinished)])]
    rfl (by intro q hq; simp at hq) (by decide)
  simpa [eraseA] using h

/-- C7: the source of `Slave::killTask` does build and send the
synthesised TASK_LOST update to the master when the framework is
unknown, but it then records the retry entry through the null
`framework` pointer: evaluating the embedded handler on a slave with no
frameworks yields the crash marker `none` with the send as the only
effect that happened, so the "enqueue it for retry" part of the claim
never executes. -/
theorem killTask_unknown_framework_crashes :
    Slave.killTask exSlaveEmpty 0 "F" "t1" =
      (none,
       [Effect.send "M" (.statusUpdateToMaster "F"
          { task_id := "t1", slave_id := "S", state := .TASK_LOST })]) := by
  decide

/-- C10: for a known framework none of whose executors owns the task,
`Slave::killTask` enters the branch `executor == NULL || !executor->pid`
and immediately calls `executor->removeTask(taskId)` on the null
executor pointer: the embedded handler yields the crash marker `none`
before any effect is emitted, refuting totality of the handler. -/
theorem killTask_no_owning_executor_crashes :
    Slave.killTask exSlaveC10 0 "F" "t1" = (none, []) := by decide

theorem lookupA_eq_none_of_not_mem {α β : Type} [DecidableEq α]
    {l : List (α × β)} {k : α} (h : k ∉ l.map Prod.fst) :
    lookupA l k = none := by
  induction l with
  | nil => rfl
  | cons p rest ih =>
    obtain ⟨a, b⟩ := p
    rw [List.map_cons] at h
    have h1 : ¬ a = k := fun hk => h (by simp [hk])
    have h2 : k ∉ rest.map Prod.fst := fun hk => h (List.mem_cons_of_mem _ hk)
    simp [lookupA, h1, ih h2]

theorem lookupA_eraseA_self_of_nodup {α β : Type} [DecidableEq α]
    {l : List (α × β)} (k : α) (h : (l.map Prod.fst).Nodup) :
    lookupA (eraseA l k) k = none := by
  induction l with
  | nil => rfl
  | cons p rest ih =>
    obtain ⟨a, b⟩ := p
    rw [List.map_cons] at h
    obtain ⟨h1, h2⟩ := List.nodup_cons.mp h
    by_cases hk : a = k
    · simp only [eraseA, hk, if_pos rfl]
      exact lookupA_eq_none_of_not_mem (fun hm => h1 (hk ▸ hm))
    · simp only [eraseA, if_neg hk, lookupA]
      simp [hk, ih h2]

theorem keys_updateA_of_lookup {α β : Type} [DecidableEq α]
    {l : List (α × β)} {k : α} {w : β} (v : β)
    (h : lookupA l k = some w) :
    (updateA l k v).map Prod.fst = l.map Prod.fst := by
  induction l with
  | nil => simp [lookupA] at h
  | cons p rest ih =>
    obtain ⟨a, b⟩ := p
    by_cases hk : a = k
    · simp [updateA, hk]
    · simp only [lookupA, hk, if_neg hk] at h
      simp [updateA, hk, ih h]

theorem bumpTaskCounter_valid (state : TaskState) (st : Statistics) :
    (bumpTaskCounter state st).valid_status_updates = st.valid_status_updates := by
  cases state <;> rfl

theorem bumpTaskCounter_invalid (state : TaskState) (st : Statistics) :
    (bumpTaskCounter state st).invalid_status_updates =
      st.invalid_status_updates := by
  cases state <;> rfl

theorem recordStatus_lookup (statuses : List (Int × List (TaskID × TaskStatus)))
    (deadline : Int) (taskId : TaskID) (status : TaskStatus) :
    ∃ b, lookupA (recordStatus statuses deadline taskId status) deadline = some b ∧
      lookupA b taskId = some status := by
  unfold recordStatus
  cases h : lookupA statuses deadline with
  | none =>
    refine ⟨[(taskId, status)], ?_, by simp [lookupA]⟩
    rw [lookupA_append_of_none _ h]
    simp [lookupA]
  | some bucket =>
    exact ⟨updateA bucket taskId status, lookupA_updateA_self _ _ _,
      lookupA_updateA_self _ _ _⟩

/-- C1: `Slave::statusUpdate` for a known framework with an executor
owning the task updates the task's local state (on a terminal state the
task is removed and its resources subtracted from the executor's sum,
with `isolation.resources_changed` called on the new sum), records the
status in the retry table under deadline now + retry_interval, forwards
exactly one status-update message to the master and increments
valid_status_updates; when the framework or the owning executor is
unknown only invalid_status_updates is incremented, with no state change
and no message. -/
theorem statusUpdate_spec (s : Slave) (now : Int) (fid : FrameworkID)
    (status : TaskStatus) :
    (∀ f eid e t,
      s.getFramework fid = some f →
      f.getExecutorByTaskId status.task_id = some (eid, e) →
      lookupA e.tasks status.task_id = some t →
      (e.tasks.map Prod.fst).Nodup →
      ∃ f' e',
        (Slave.statusUpdate s now fid status).1.getFramework fid = some f' ∧
        lookupA f'.executors eid = some e' ∧
        (status.state.terminal = true →
          lookupA e'.tasks status.task_id = none ∧
          e'.resources = e.resources - t.resources ∧
          (Slave.statusUpdate s now fid status).2 =
            [Effect.resourcesChanged fid f.info e.info e'.resources,
             Effect.send s.master (.statusUpdateToMaster fid status)]) ∧
        (status.state.terminal = false →
          lookupA e'.tasks status.task_id = some { t with state := status.state } ∧
          e'.resources = e.resources ∧
          (Slave.statusUpdate s now fid status).2 =
            [Effect.send s.master (.statusUpdateToMaster fid status)]) ∧
        (∃ b, lookupA f'.statuses (now + STATUS_UPDATE_RETRY_INTERVAL) = some b ∧
          lookupA b status.task_id = some status) ∧
        (Slave.statusUpdate s now fid status).1.statistics.valid_status_updates =
          s.statistics.valid_status_updates + 1 ∧
        (Slave.statusUpdate s now fid status).1.statistics.invalid_status_updates =
          s.statistics.invalid_status_updates) ∧
    ((s.getFramework fid = none ∨
      ∃ f, s.getFramework fid = some f ∧
        f.getExecutorByTaskId status.task_id = none) →
      (Slave.statusUpdate s now fid status).1 =
        { s with statistics :=
            { s.statistics with invalid_status_updates :=
                s.statistics.invalid_status_updates + 1 } } ∧
      (Slave.statusUpdate s now fid status).2 = []) := by
  constructor
  · intro f eid e t hf he ht hnodup
    have hf' : lookupA s.frameworks fid = some f := hf
    have hkeys : (updateA e.tasks status.task_id
        { t with state := status.state }).map Prod.fst = e.tasks.map Prod.fst :=
      keys_updateA_of_lookup _ ht
    by_cases hterm : status.state.terminal = true
    · simp only [Slave.statusUpdate, Slave.getFramework, hf', he,
        Executor.updateTaskState, ht, hterm, if_true, Executor.removeTask,
        lookupA_updateA_self]
      refine ⟨_, _, rfl, lookupA_updateA_self _ _ _,
        fun _ => ⟨lookupA_eraseA_self_of_nodup _ (hkeys ▸ hnodup), rfl, by simp⟩,
        fun hfalse => absurd hfalse (by simp),
        by simpa [STATUS_UPDATE_RETRY_TIMEOUT] using
          recordStatus_lookup f.statuses (now + STATUS_UPDATE_RETRY_TIMEOUT)
            status.task_id status,
        by simp [bumpTaskCounter_valid],
        by simp [bumpTaskCounter_invalid]⟩
    · rw [Bool.not_eq_true] at hterm
      simp only [Slave.statusUpdate, Slave.getFramework, hf', he,
        Executor.updateTaskState, ht, hterm, Bool.false_eq_true, if_false,
        lookupA_updateA_self]
      refine ⟨_, _, rfl, lookupA_updateA_self _ _ _,
        fun htrue => absurd htrue (by simp),
        fun _ => ⟨lookupA_updateA_self _ _ _, rfl, by simp⟩,
        by simpa [STATUS_UPDATE_RETRY_TIMEOUT] using
          recordStatus_lookup f.statuses (now + STATUS_UPDATE_RETRY_TIMEOUT)
            status.task_id status,
        by simp [bumpTaskCounter_valid],
        by simp [bumpTaskCounter_invalid]⟩
  · intro hbad
    rcases hbad with hnone | ⟨f, hf, hnoexec⟩
    · have hf' : lookupA s.frameworks fid = none := hnone
      simp [Slave.statusUpdate, Slave.getFramework, hf']
    · have hf' : lookupA s.frameworks fid = some f := hf
      simp [Slave.statusUpdate, Slave.getFramework, hf', hnoexec]

/-- C1 witness: the status-update theorem applied to the concrete state
`exSlaveC6` (framework "F", executor "E" running task "t1") at time 7 for
a terminal TASK_FINISHED status. -/
theorem statusUpdate_spec_witness :
    exSlaveC6.getFramework "F" = some exFrameworkC6 ∧
    exFrameworkC6.getExecutorByTaskId exStatusFinished.task_id =
      some ("E", exExecutorC6) ∧
    lookupA exExecutorC6.tasks exStatusFinished.task_id = some exTaskRunning ∧
    (exExecutorC6.tasks.map Prod.fst).Nodup ∧
    (∃ f' e',
      (Slave.statusUpdate exSlaveC6 7 "F" exStatusFinished).1.getFramework "F" =
        some f' ∧
      lookupA f'.executors "E" = some e' ∧
      (exStatusFinished.state.terminal = true →
        lookupA e'.tasks exStatusFinished.task_id = none ∧
        e'.resources = exExecutorC6.resources - exTaskRunning.resources ∧
        (Slave.statusUpdate exSlaveC6 7 "F" exStatusFinished).2 =
          [Effect.resourcesChanged "F" exFrameworkC6.info exExecutorC6.info
             e'.resources,
           Effect.send exSlaveC6.master
             (.statusUpdateToMaster "F" exStatusFinished)]) ∧
      (exStatusFinished.state.terminal = false →
        lookupA e'.tasks exStatusFinished.task_id =
          some { exTaskRunning with state := exStatusFinished.state } ∧
        e'.resources = exExecutorC6.resources ∧
        (Slave.statusUpdate exSlaveC6 7 "F" exStatusFinished).2 =
          [Effect.send exSlaveC6.master
             (.statusUpdateToMaster "F" exStatusFinished)]) ∧
      (∃ b, lookupA f'.statuses (7 + STATUS_UPDATE_RETRY_INTERVAL) = some b ∧
        lookupA b exStatusFinished.task_id = some exStatusFinished) ∧
      (Slave.statusUpdate exSlaveC6 7 "F"
          exStatusFinished).1.statistics.valid_status_updates =
        exSlaveC6.statistics.valid_status_updates + 1 ∧
      (Slave.statusUpdate exSlaveC6 7 "F"
          exStatusFinished).1.statistics.invalid_status_updates =
        exSlaveC6.statistics.invalid_status_updates) :=
  ⟨by decide, by decide, by decide, by decide,
   (statusUpdate_spec exSlaveC6 7 "F" exStatusFinished).1 exFrameworkC6 "E"
     exExecutorC6 exTaskRunning (by decide) (by decide) (by decide) (by decide)⟩

theorem lookupA_append_of_some {α β : Type} [DecidableEq α]
    {l : List (α × β)} (m : List (α × β)) {k : α} {v : β}
    (h : lookupA l k = some v) : lookupA (l ++ m) k = some v := by
  induction l with
  | nil => simp [lookupA] at h
  | cons p rest ih =>
    obtain ⟨a, b⟩ := p
    by_cases hk : a = k
    · subst hk
      rw [List.cons_append]
      simp only [lookupA, if_pos rfl] at h ⊢
      exact h
    · simp only [lookupA, hk, if_neg hk] at h
      simp [lookupA, hk, ih h]

theorem addTask_pid (e : Executor) (task : TaskDescription) :
    (e.addTask task).pid = e.pid := by
  unfold Executor.addTask
  split <;> rfl

theorem addTask_info (e : Executor) (task : TaskDescription) :
    (e.addTask task).info = e.info := by
  unfold Executor.addTask
  split <;> rfl

theorem addTask_self_mem (e : Executor) (task : TaskDescription) :
    (lookupA (e.addTask task).tasks task.task_id).isSome = true := by
  unfold Executor.addTask
  cases hl : lookupA e.tasks task.task_id with
  | some v => simp [hl]
  | none => simp [hl, lookupA_append_of_none _ hl, lookupA]

theorem addTask_preserves_mem (e : Executor) (task : TaskDescription)
    {k : TaskID} (h : (lookupA e.tasks k).isSome = true) :
    (lookupA (e.addTask task).tasks k).isSome = true := by
  unfold Executor.addTask
  split
  · exact h
  · obtain ⟨v, hv⟩ := Option.isSome_iff_exists.mp h
    simp [lookupA_append_of_some _ hv]

theorem flushTasks_pid (finfo : FrameworkInfo) (fid : FrameworkID)
    (fpid : UPID) (epid : UPID) (q : List TaskDescription) :
    ∀ e : Executor, (flushTasks finfo fid fpid epid e q).1.pid = e.pid := by
  induction q with
  | nil => intro e; rfl
  | cons task rest ih =>
    intro e
    simp only [flushTasks]
    rw [ih (e.addTask task), addTask_pid]

theorem flushTasks_effects (finfo : FrameworkInfo) (fid : FrameworkID)
    (fpid : UPID) (epid : UPID) (q : List TaskDescription) :
    ∀ e : Executor, (flushTasks finfo fid fpid epid e q).2 =
      q.map (fun task =>
        Effect.send epid (.runTaskToExecutor finfo fid fpid task)) := by
  induction q with
  | nil => intro e; rfl
  | cons task rest ih =>
    intro e
    simp only [flushTasks, List.map_cons, List.cons.injEq, true_and]
    exact ih (e.addTask task)

theorem flushTasks_preserves_mem (finfo : FrameworkInfo) (fid : FrameworkID)
    (fpid : UPID) (epid : UPID) (q : List TaskDescription) :
    ∀ e : Executor, ∀ k : TaskID, (lookupA e.tasks k).isSome = true →
      (lookupA (flushTasks finfo fid fpid epid e q).1.tasks k).isSome = true := by
  induction q with
  | nil => intro e k h; exact h
  | cons task rest ih =>
    intro e k h
    exact ih (e.addTask task) k (addTask_preserves_mem e task h)

theorem flushTasks_all_mem (finfo : FrameworkInfo) (fid : FrameworkID)
    (fpid : UPID) (epid : UPID) (q : List TaskDescription) :
    ∀ e : Executor, ∀ task ∈ q,
      (lookupA (flushTasks finfo fid fpid epid e q).1.tasks
        task.task_id).isSome = true := by
  induction q with
  | nil => intro e task h; simp at h
  | cons task0 rest ih =>
    intro e task h
    rcases List.mem_cons.mp h with h' | h'
    · subst h'
      simp only [flushTasks]
      exact flushTasks_preserves_mem finfo fid fpid epid rest _ _
        (addTask_self_mem e task)
    · exact ih (e.addTask task0) task h'

/-- C4: `Slave::registerExecutor` for a known framework with an expected,
not-yet-registered executor adopts the sender's address as the
executor's mailbox, calls `isolation.resources_changed`, replies with a
registration message, and flushes the queued tasks: each is added to the
task set and sent to the executor in queue order, after which
queued_tasks is empty.  For an unknown framework, an unknown executor or
an already-registered executor it replies kill_executor and changes no
state. -/
theorem registerExecutor_spec (s : Slave) (sender : UPID)
    (fid : FrameworkID) (eid : ExecutorID) :
    (∀ f e, s.getFramework fid = some f → f.getExecutor eid = some e →
      e.pid = "" →
      ∃ f' e',
        (s.registerExecutor sender fid eid).1.getFramework fid = some f' ∧
        lookupA f'.executors eid = some e' ∧
        e'.pid = sender ∧
        e'.queuedTasks = [] ∧
        (∀ task ∈ e.queuedTasks,
          (lookupA e'.tasks task.task_id).isSome = true) ∧
        (s.registerExecutor sender fid eid).2 =
          [Effect.resourcesChanged f.frameworkId f.info e.info e.resources,
           Effect.send sender (.registerReplyToExecutor f.frameworkId
             e.info.executor_id s.slaveId s.slave.hostname
             f.info.executor.data)] ++
          e.queuedTasks.map (fun task =>
            Effect.send sender
              (.runTaskToExecutor f.info f.frameworkId f.pid task))) ∧
    ((s.getFramework fid = none ∨
      (∃ f, s.getFramework fid = some f ∧
        (f.getExecutor eid = none ∨
         ∃ e, f.getExecutor eid = some e ∧ e.pid ≠ ""))) →
      (s.registerExecutor sender fid eid).1 = s ∧
      (s.registerExecutor sender fid eid).2 =
        [.send sender .killExecutorMsg]) := by
  constructor
  · intro f e hf he hpid
    have hf' : lookupA s.frameworks fid = some f := hf
    have he' : lookupA f.executors eid = some e := he
    simp only [Slave.registerExecutor, Slave.getFramework, hf',
      Framework.getExecutor, he', hpid, ne_eq, not_true_eq_false,
      if_false, ite_false, lookupA_updateA_self]
    refine ⟨_, _, rfl, lookupA_updateA_self _ _ _, ?_, ?_, ?_, ?_⟩
    · simp [Slave.sendQueuedTasks, flushTasks_pid]
    · simp [Slave.sendQueuedTasks]
    · intro task htask
      simpa [Slave.sendQueuedTasks] using
        flushTasks_all_mem f.info f.frameworkId f.pid sender e.queuedTasks
          { e with pid := sender } task htask
    · simp [Slave.sendQueuedTasks, flushTasks_effects]
  · intro hbad
    rcases hbad with hnone | ⟨f, hf, hrest⟩
    · have hf' : lookupA s.frameworks fid = none := hnone
      simp [Slave.registerExecutor, Slave.getFramework, hf']
    · have hf' : lookupA s.frameworks fid = some f := hf
      rcases hrest with hnoexec | ⟨e, he, hep⟩
      · have he' : lookupA f.executors eid = none := hnoexec
        simp [Slave.registerExecutor, Slave.getFramework, hf',
          Framework.getExecutor, he']
      · have he' : lookupA f.executors eid = some e := he
        simp [Slave.registerExecutor, Slave.getFramework, hf',
          Framework.getExecutor, he', hep]

/-- C4 witness: the register-executor theorem applied to `exSlaveC4`,
whose executor "E" has no address yet and one queued task. -/
theorem registerExecutor_spec_witness :
    exSlaveC4.getFramework "F" = some exFrameworkC4 ∧
    exFrameworkC4.getExecutor "E" = some exExecutorC4 ∧
    exExecutorC4.pid = "" ∧
    (∃ f' e',
      (exSlaveC4.registerExecutor "epid" "F" "E").1.getFramework "F" =
        some f' ∧
      lookupA f'.executors "E" = some e' ∧
      e'.pid = "epid" ∧
      e'.queuedTasks = [] ∧
      (∀ task ∈ exExecutorC4.queuedTasks,
        (lookupA e'.tasks task.task_id).isSome = true) ∧
      (exSlaveC4.registerExecutor "epid" "F" "E").2 =
        [Effect.resourcesChanged exFrameworkC4.frameworkId exFrameworkC4.info
           exExecutorC4.info exExecutorC4.resources,
         Effect.send "epid" (.registerReplyToExecutor
           exFrameworkC4.frameworkId exExecutorC4.info.executor_id
           exSlaveC4.slaveId exSlaveC4.slave.hostname
           exFrameworkC4.info.executor.data)] ++
        exExecutorC4.queuedTasks.map (fun task =>
          Effect.send "epid" (.runTaskToExecutor exFrameworkC4.info
            exFrameworkC4.frameworkId exFrameworkC4.pid task))) :=
  ⟨by decide, by decide, by decide,
   (registerExecutor_spec exSlaveC4 "epid" "F" "E").1 exFrameworkC4
     exExecutorC4 (by decide) (by decide) (by decide)⟩

/-- C5 counterexample: running a task on a slave with no frameworks
takes the queue-and-launch path.  The created executor is left with an
empty resource sum even though the task carries non-zero resources, and
no `resources_changed` call is among the effects — contradicting the
claim that in both cases the slave updates the executor's resource sum
and calls `isolation.resources_changed`. -/
theorem runTask_queued_no_resources_changed :
    ((Slave.runTask exSlaveEmpty exFrameworkInfo "F" "fpid" exTaskDescription
        7).2.all (fun eff => !eff.isResourcesChanged)) = true ∧
    (((Slave.runTask exSlaveEmpty exFrameworkInfo "F" "fpid" exTaskDescription
        7).1.getFramework "F").map (fun f =>
          (f.getExecutor "E").map (fun e => e.resources))) =
      some (some Resources.zero) ∧
    exTaskDescription.resources ≠ Resources.zero := by decide

/-- C5 (amended): only when the selected executor is already running is
the task added to its task set, the resource sum updated and
`isolation.resources_changed` called (after forwarding run_task); when
the executor exists but has not registered the task is only queued, with
no effect at all, and when no executor exists one is created with an
empty resource sum and the queued task, and the only effects are the
launch request (plus the reaper dispatch) — the resource sum and the
isolation module are untouched until the executor registers. -/
theorem runTask_spec (s : Slave) (finfo : FrameworkInfo)
    (fid : FrameworkID) (pid : UPID) (task : TaskDescription)
    (launchedPid : Int) :
    (∀ f e, s.runTaskFramework finfo fid pid = f →
      f.getExecutor (selectedExecutorInfo f task).executor_id = some e →
      e.pid ≠ "" → lookupA e.tasks task.task_id = none →
      ∃ f',
        (Slave.runTask s finfo fid pid task launchedPid).1.getFramework fid =
          some f' ∧
        lookupA f'.executors e.info.executor_id = some (e.addTask task) ∧
        (e.addTask task).resources = e.resources + task.resources ∧
        (lookupA (e.addTask task).tasks task.task_id).isSome = true ∧
        (Slave.runTask s finfo fid pid task launchedPid).2 =
          [Effect.send e.pid
             (.runTaskToExecutor f.info f.frameworkId f.pid task),
           Effect.resourcesChanged f.frameworkId f.info e.info
             (e.addTask task).resources]) ∧
    (∀ f e, s.runTaskFramework finfo fid pid = f →
      f.getExecutor (selectedExecutorInfo f task).executor_id = some e →
      e.pid = "" →
      ∃ f',
        (Slave.runTask s finfo fid pid task launchedPid).1.getFramework fid =
          some f' ∧
        lookupA f'.executors e.info.executor_id =
          some { e with queuedTasks := e.queuedTasks ++ [task] } ∧
        (Slave.runTask s finfo fid pid task launchedPid).2 = []) ∧
    (∀ f, s.runTaskFramework finfo fid pid = f →
      f.getExecutor (selectedExecutorInfo f task).executor_id = none →
      ∃ f',
        (Slave.runTask s finfo fid pid task launchedPid).1.getFramework fid =
          some f' ∧
        lookupA f'.executors (selectedExecutorInfo f task).executor_id =
          some { frameworkId := f.frameworkId
                 info := selectedExecutorInfo f task
                 pid := ""
                 tasks := []
                 queuedTasks := [task]
                 resources := Resources.zero } ∧
        ((Slave.runTask s finfo fid pid task launchedPid).2.all
          (fun eff => !eff.isResourcesChanged)) = true) := by
  refine ⟨?_, ?_, ?_⟩
  · intro f e hf he hpid hfresh
    subst hf
    have hpid' : (e.pid = "") = False := by simp [hpid]
    simp only [Slave.runTask, Slave.getFramework, he, hpid', if_false,
      addTask_pid, addTask_info, lookupA_updateA_self]
    refine ⟨_, rfl, lookupA_updateA_self _ _ _, ?_, addTask_self_mem e task,
      trivial⟩
    unfold Executor.addTask
    simp [hfresh]
  · intro f e hf he hpid
    subst hf
    simp only [Slave.runTask, Slave.getFramework, he, hpid, if_true,
      lookupA_updateA_self]
    exact ⟨_, rfl, lookupA_updateA_self _ _ _, trivial⟩
  · intro f hf he
    subst hf
    simp only [Slave.runTask, Slave.getFramework, he, Framework.createExecutor,
      lookupA_updateA_self]
    refine ⟨_, rfl, lookupA_updateA_self _ _ _, ?_⟩
    by_cases hl : launchedPid ≠ 0 <;>
      simp [hl, Effect.isResourcesChanged]

/-- C5 witness: the amended run-task theorem applied to `exSlaveC6`,
whose executor "E" is registered and does not yet own task "t2". -/
theorem runTask_spec_witness :
    exSlaveC6.runTaskFramework exFrameworkInfo "F" "fpid" = exFrameworkC6 ∧
    exFrameworkC6.getExecutor
      (selectedExecutorInfo exFrameworkC6 exTaskDescription2).executor_id =
        some exExecutorC6 ∧
    exExecutorC6.pid ≠ "" ∧
    lookupA exExecutorC6.tasks exTaskDescription2.task_id = none ∧
    (∃ f',
      (Slave.runTask exSlaveC6 exFrameworkInfo "F" "fpid" exTaskDescription2
        7).1.getFramework "F" = some f' ∧
      lookupA f'.executors exExecutorC6.info.executor_id =
        some (exExecutorC6.addTask exTaskDescription2) ∧
      (exExecutorC6.addTask exTaskDescription2).resources =
        exExecutorC6.resources + exTaskDescription2.resources ∧
      (lookupA (exExecutorC6.addTask exTaskDescription2).tasks
        exTaskDescription2.task_id).isSome = true ∧
      (Slave.runTask exSlaveC6 exFrameworkInfo "F" "fpid" exTaskDescription2
        7).2 =
        [Effect.send exExecutorC6.pid
           (.runTaskToExecutor exFrameworkC6.info exFrameworkC6.frameworkId
             exFrameworkC6.pid exTaskDescription2),
         Effect.resourcesChanged exFrameworkC6.frameworkId exFrameworkC6.info
           exExecutorC6.info (exExecutorC6.addTask exTaskDescription2).resources]) :=
  ⟨by decide, by decide, by decide, by decide,
   (runTask_spec exSlaveC6 exFrameworkInfo "F" "fpid" exTaskDescription2 7).1
     exFrameworkC6 exExecutorC6 (by decide) (by decide) (by decide) (by decide)⟩

/-- C6 counterexample: in `exSlaveC6` the exiting executor "E" owns one
non-terminal (RUNNING) task, yet the handler's effects contain no
status-update message at all — the slave does not mark tasks TASK_LOST
nor forward per-task updates (it only reports the exited executor to
the master, which is where TASK_LOST generation happens). -/
theorem executorExited_sends_no_status_updates :
    ((Slave.executorExited exSlaveC6 "F" "E" 9).2.all
      (fun eff => !eff.isStatusUpdateSend)) = true ∧
    (exExecutorC6.tasks.all (fun t => !t.2.state.terminal)) = true ∧
    exExecutorC6.tasks.length = 1 := by decide

/-- C6 (amended): for a known framework and executor the slave sends a
single exited_executor report to the master (no per-task TASK_LOST
updates — the master derives those), asks the isolation module to kill
the executor, removes the executor entity, and removes the framework
entry when no executors remain; nothing happens for an unknown framework
or executor. -/
theorem executorExited_spec (s : Slave) (fid : FrameworkID)
    (eid : ExecutorID) (result : Int) :
    (∀ f e, s.getFramework fid = some f → f.getExecutor eid = some e →
      (Slave.executorExited s fid eid result).2 =
        [Effect.send s.master (.exitedExecutor s.slaveId fid eid result),
         Effect.isolationKillExecutor fid f.info e.info] ∧
      (eraseA f.executors eid = [] →
        (s.frameworks.map Prod.fst).Nodup →
        (Slave.executorExited s fid eid result).1.getFramework fid = none) ∧
      (eraseA f.executors eid ≠ [] →
        (Slave.executorExited s fid eid result).1.getFramework fid =
          some { f with executors := eraseA f.executors eid })) ∧
    ((s.getFramework fid = none ∨
      ∃ f, s.getFramework fid = some f ∧ f.getExecutor eid = none) →
      Slave.executorExited s fid eid result = (s, [])) := by
  constructor
  · intro f e hf he
    have hf' : lookupA s.frameworks fid = some f := hf
    have he' : lookupA f.executors eid = some e := he
    refine ⟨?_, ?_, ?_⟩
    · simp only [Slave.executorExited, Slave.getFramework, hf',
        Framework.getExecutor, he']
    · intro hempty hnodup
      simp only [Slave.executorExited, Slave.getFramework, hf',
        Framework.getExecutor, he', hempty, if_true]
      exact lookupA_eraseA_self_of_nodup fid hnodup
    · intro hempty
      simp only [Slave.executorExited, Slave.getFramework, hf',
        Framework.getExecutor, he', hempty, if_false]
      simp [hempty, Slave.getFramework, lookupA_updateA_self]
  · intro hbad
    rcases hbad with hnone | ⟨f, hf, hnoexec⟩
    · have hf' : lookupA s.frameworks fid = none := hnone
      simp [Slave.executorExited, Slave.getFramework, hf']
    · have hf' : lookupA s.frameworks fid = some f := hf
      have he' : lookupA f.executors eid = none := hnoexec
      simp [Slave.executorExited, Slave.getFramework, hf',
        Framework.getExecutor, he']

/-- C6 witness: the amended theorem applied to `exSlaveC6`, whose only
framework owns a single executor: after the exit the executor and the
framework entry are both gone and the two effects are the master report
and the isolation cleanup call. -/
theorem executorExited_spec_witness :
    exSlaveC6.getFramework "F" = some exFrameworkC6 ∧
    exFrameworkC6.getExecutor "E" = some exExecutorC6 ∧
    ((Slave.executorExited exSlaveC6 "F" "E" 9).2 =
      [Effect.send exSlaveC6.master
         (.exitedExecutor exSlaveC6.slaveId "F" "E" 9),
       Effect.isolationKillExecutor "F" exFrameworkC6.info
         exExecutorC6.info] ∧
     (eraseA exFrameworkC6.executors "E" = [] →
       (exSlaveC6.frameworks.map Prod.fst).Nodup →
       (Slave.executorExited exSlaveC6 "F" "E" 9).1.getFramework "F" =
         none) ∧
     (eraseA exFrameworkC6.executors "E" ≠ [] →
       (Slave.executorExited exSlaveC6 "F" "E" 9).1.getFramework "F" =
         some { exFrameworkC6 with
                executors := eraseA exFrameworkC6.executors "E" })) :=
  ⟨by decide, by decide,
   (executorExited_spec exSlaveC6 "F" "E" 9).1 exFrameworkC6 exExecutorC6
     (by decide) (by decide)⟩

theorem Resources.zero_add (a : Resources) : Resources.zero + a = a := by
  cases a
  simp [Resources.add_def, Resources.zero]

theorem Resources.add_zero (a : Resources) : a + Resources.zero = a := by
  cases a
  simp [Resources.add_def, Resources.zero]

theorem Resources.add_assoc (a b c : Resources) :
    a + b + c = a + (b + c) := by
  cases a
  cases b
  cases c
  simp [Resources.add_def]
  omega

theorem sumResources_append (l m : List (TaskID × Task)) :
    sumResources (l ++ m) = sumResources l + sumResources m := by
  induction l with
  | nil => simp [sumResources, Resources.zero_add]
  | cons p rest ih =>
    simp only [List.cons_append, sumResources, List.append_eq, ih,
      Resources.add_assoc]

theorem lookupA_cons_self {α β : Type} [DecidableEq α] (a : α) (b : β)
    (rest : List (α × β)) : lookupA ((a, b) :: rest) a = some b := by
  simp [lookupA]

theorem eraseA_cons_self {α β : Type} [DecidableEq α] (a : α) (b : β)
    (rest : List (α × β)) : eraseA ((a, b) :: rest) a = rest := by
  simp [eraseA]

theorem updateA_cons_self {α β : Type} [DecidableEq α] (a : α) (b v : β)
    (rest : List (α × β)) : updateA ((a, b) :: rest) a v = (a, v) :: rest := by
  simp [updateA]

theorem sumResources_eraseA {l : List (TaskID × Task)} {tid : TaskID}
    {t : Task} (h : lookupA l tid = some t) :
    sumResources (eraseA l tid) = sumResources l - t.resources := by
  induction l with
  | nil => simp [lookupA] at h
  | cons p rest ih =>
    obtain ⟨a, b⟩ := p
    by_cases hk : a = tid
    · subst hk
      rw [lookupA_cons_self] at h
      injection h with h
      subst h
      rw [eraseA_cons_self]
      simp only [sumResources]
      rw [Resources.add_sub_cancel_left]
    · simp only [lookupA, hk, if_neg hk] at h
      simp only [eraseA, hk, if_neg hk, sumResources, ih h]
      rw [Resources.add_sub_assoc]

theorem sumResources_updateA_same {l : List (TaskID × Task)} {tid : TaskID}
    {t : Task} (t' : Task) (h : lookupA l tid = some t)
    (hres : t'.resources = t.resources) :
    sumResources (updateA l tid t') = sumResources l := by
  induction l with
  | nil => simp [lookupA] at h
  | cons p rest ih =>
    obtain ⟨a, b⟩ := p
    by_cases hk : a = tid
    · subst hk
      rw [lookupA_cons_self] at h
      injection h with h
      subst h
      rw [updateA_cons_self]
      simp only [sumResources, hres]
    · simp only [lookupA, hk, if_neg hk] at h
      simp only [updateA, hk, if_neg hk, sumResources, ih h]

theorem flushTasks_pres (P : Executor → Prop)
    (hadd : ∀ e t, P e → P (e.addTask t))
    (finfo : FrameworkInfo) (fid : FrameworkID) (fpid : UPID) (epid : UPID) :
    ∀ q (e : Executor), P e → P (flushTasks finfo fid fpid epid e q).1 := by
  intro q
  induction q with
  | nil => intro e hP; exact hP
  | cons t rest ih =>
    intro e hP
    simp only [flushTasks]
    exact ih (e.addTask t) (hadd e t hP)

theorem execInv_initial (P : Executor → Prop) (info : SlaveInfo) :
    execInv P (Slave.initial info) := by
  intro fw hfw
  simp [Slave.initial] at hfw

theorem execInv_newMasterDetected (P : Executor → Prop) {s : Slave}
    (h : execInv P s) (pid : UPID) :
    execInv P (Slave.newMasterDetected s pid).1 := by
  have hfr : (Slave.newMasterDetected s pid).1.frameworks = s.frameworks := by
    simp only [Slave.newMasterDetected]
    split <;> rfl
  intro fw hfw
  rw [hfr] at hfw
  exact h fw hfw

theorem execInv_registerReply (P : Executor → Prop) {s : Slave}
    (h : execInv P s) (slaveId : SlaveID) :
    execInv P (Slave.registerReply s slaveId) :=
  fun fw hfw ex hex => h fw hfw ex hex

theorem execInv_timeout (P : Executor → Prop) {s : Slave}
    (h : execInv P s) (now : Int) : execInv P (Slave.timeout s now).1 :=
  fun fw hfw ex hex => h fw hfw ex hex

theorem execInv_statusUpdateAck (P : Executor → Prop) {s : Slave}
    (h : execInv P s) (fid : FrameworkID) (sid : SlaveID) (tid : TaskID) :
    execInv P (Slave.statusUpdateAck s fid sid tid) := by
  cases hl : s.getFramework fid with
  | none =>
    simp only [Slave.statusUpdateAck, hl]
    exact fun fw hfw ex hex => h fw hfw ex hex
  | some f =>
    simp only [Slave.statusUpdateAck, hl]
    intro fw hfw ex hex
    rcases mem_updateA hfw with hold | heq
    · exact h fw hold ex hex
    · subst heq
      exact h (fid, f) (lookupA_mem hl) ex hex

theorem execInv_statusUpdate (P : Executor → Prop)
    (h1 : ∀ (e : Executor) tid st, st.terminal = true → P e →
      P ((e.updateTaskState tid st).removeTask tid))
    (h2 : ∀ (e : Executor) tid st, st.terminal = false → P e →
      P (e.updateTaskState tid st))
    {s : Slave} (h : execInv P s) (now : Int) (fid : FrameworkID)
    (status : TaskStatus) :
    execInv P (Slave.statusUpdate s now fid status).1 := by
  cases hl : s.getFramework fid with
  | none =>
    simp only [Slave.statusUpdate, hl]
    exact fun fw hfw ex hex => h fw hfw ex hex
  | some f =>
    cases he : f.getExecutorByTaskId status.task_id with
    | none =>
      simp only [Slave.statusUpdate, hl, he]
      exact fun fw hfw ex hex => h fw hfw ex hex
    | some p =>
      obtain ⟨eid, e⟩ := p
      have hPe : P e :=
        h (fid, f) (lookupA_mem hl) (eid, e) (List.mem_of_find?_eq_some he)
      simp only [Slave.statusUpdate, hl, he]
      intro fw hfw ex hex
      rcases mem_updateA hfw with hold | heq
      · exact h fw hold ex hex
      · subst heq
        rcases mem_updateA hex with hexold | hexeq
        · exact h (fid, f) (lookupA_mem hl) ex hexold
        · subst hexeq
          by_cases hb : status.state.terminal = true
          · simp only [hb, if_true]
            exact h1 e status.task_id status.state hb hPe
          · rw [Bool.not_eq_true] at hb
            simp only [hb, Bool.false_eq_true, if_false]
            exact h2 e status.task_id status.state hb hPe

theorem execInv_runTask (P : Executor → Prop)
    (hqueue : ∀ (e : Executor) q, P e → P { e with queuedTasks := q })
    (hadd : ∀ (e : Executor) t, P e → P (e.addTask t))
    (hnew : ∀ fid einfo q, P (Executor.mk fid einfo "" [] q Resources.zero))
    {s : Slave} (h : execInv P s) (finfo : FrameworkInfo)
    (fid : FrameworkID) (pid : UPID) (task : TaskDescription)
    (launchedPid : Int) :
    execInv P (Slave.runTask s finfo fid pid task launchedPid).1 := by
  have hFexec : ∀ ex ∈ (s.runTaskFramework finfo fid pid).executors, P ex.2 := by
    cases hl : s.getFramework fid with
    | none =>
      simp only [Slave.runTaskFramework, hl]
      intro ex hex
      simp at hex
    | some f =>
      simp only [Slave.runTaskFramework, hl]
      intro ex hex
      exact h (fid, f) (lookupA_mem hl) ex hex
  cases hsel : (s.runTaskFramework finfo fid pid).getExecutor
      (selectedExecutorInfo (s.runTaskFramework finfo fid pid) task).executor_id with
  | some e =>
    have hPe : P e :=
      hFexec (_, e) (lookupA_mem hsel)
    by_cases hp : e.pid = ""
    · have hp' : (e.pid = "") = True := by simp [hp]
      simp only [Slave.runTask, hsel, hp', if_true]
      intro fw hfw ex hex
      rcases mem_updateA hfw with hold | heq
      · exact h fw hold ex hex
      · subst heq
        rcases mem_updateA hex with hexold | hexeq
        · exact hFexec ex hexold
        · subst hexeq
          exact hqueue e (e.queuedTasks ++ [task]) hPe
    · have hp' : (e.pid = "") = False := by simp [hp]
      simp only [Slave.runTask, hsel, hp', if_false]
      intro fw hfw ex hex
      rcases mem_updateA hfw with hold | heq
      · exact h fw hold ex hex
      · subst heq
        rcases mem_updateA hex with hexold | hexeq
        · exact hFexec ex hexold
        · subst hexeq
          exact hadd e task hPe
  | none =>
    simp only [Slave.runTask, hsel, Framework.createExecutor]
    intro fw hfw ex hex
    rcases mem_updateA hfw with hold | heq
    · exact h fw hold ex hex
    · subst heq
      rcases mem_updateA hex with hexold | hexeq
      · rcases List.mem_append.mp hexold with hexF | hexnew
        · exact hFexec ex hexF
        · rw [List.mem_singleton.mp hexnew]
          exact hnew _ _ []
      · subst hexeq
        exact hnew _ _ [task]

theorem execInv_registerExecutor (P : Executor → Prop)
    (hpid : ∀ (e : Executor) p, P e → P { e with pid := p })
    (hadd : ∀ (e : Executor) t, P e → P (e.addTask t))
    (hqueue : ∀ (e : Executor) q, P e → P { e with queuedTasks := q })
    {s : Slave} (h : execInv P s) (sender : UPID) (fid : FrameworkID)
    (eid : ExecutorID) :
    execInv P (Slave.registerExecutor s sender fid eid).1 := by
  cases hl : s.getFramework fid with
  | none =>
    simp only [Slave.registerExecutor, hl]
    exact fun fw hfw ex hex => h fw hfw ex hex
  | some f =>
    cases he : f.getExecutor eid with
    | none =>
      simp only [Slave.registerExecutor, hl, he]
      exact fun fw hfw ex hex => h fw hfw ex hex
    | some e =>
      have hPe : P e := h (fid, f) (lookupA_mem hl) (eid, e) (lookupA_mem he)
      by_cases hp : e.pid = ""
      · simp only [Slave.registerExecutor, hl, he, hp, ne_eq,
          not_true_eq_false, if_false, ite_false]
        intro fw hfw ex hex
        rcases mem_updateA hfw with hold | heq
        · exact h fw hold ex hex
        · subst heq
          rcases mem_updateA hex with hexold | hexeq
          · exact h (fid, f) (lookupA_mem hl) ex hexold
          · subst hexeq
            exact hqueue _ [] (flushTasks_pres P hadd _ _ _ _ _ _
              (hpid e sender hPe))
      · have hp' : (¬ e.pid = "") = True := by simp [hp]
        simp only [Slave.registerExecutor, hl, he, ne_eq, hp', if_true]
        exact fun fw hfw ex hex => h fw hfw ex hex

theorem execInv_killTask (P : Executor → Prop)
    (hremove : ∀ (e : Executor) tid, P e → P (e.removeTask tid))
    {s s' : Slave} (h : execInv P s) (now : Int) (fid : FrameworkID)
    (tid : TaskID) (effects : List Effect)
    (heq : Slave.killTask s now fid tid = (some s', effects)) :
    execInv P s' := by
  cases hl : s.getFramework fid with
  | none =>
    simp only [Slave.killTask, hl] at heq
    simp at heq
  | some f =>
    cases he : f.getExecutorByTaskId tid with
    | none =>
      simp only [Slave.killTask, hl, he] at heq
      simp at heq
    | some p =>
      obtain ⟨eid, e⟩ := p
      have hPe : P e :=
        h (fid, f) (lookupA_mem hl) (eid, e) (List.mem_of_find?_eq_some he)
      by_cases hp : e.pid = ""
      · have hp' : (e.pid = "") = True := by simp [hp]
        simp only [Slave.killTask, hl, he, hp', if_true] at heq
        have hs := congrArg Prod.fst heq
        simp only [Option.some.injEq] at hs
        subst hs
        intro fw hfw ex hex
        rcases mem_updateA hfw with hold | hfweq
        · exact h fw hold ex hex
        · subst hfweq
          rcases mem_updateA hex with hexold | hexeq
          · exact h (fid, f) (lookupA_mem hl) ex hexold
          · subst hexeq
            exact hremove e tid hPe
      · have hp' : (e.pid = "") = False := by simp [hp]
        simp only [Slave.killTask, hl, he, hp', if_false] at heq
        have hs := congrArg Prod.fst heq
        simp only [Option.some.injEq] at hs
        subst hs
        exact fun fw hfw ex hex => h fw hfw ex hex

theorem execInv_executorExited (P : Executor → Prop) {s : Slave}
    (h : execInv P s) (fid : FrameworkID) (eid : ExecutorID)
    (result : Int) :
    execInv P (Slave.executorExited s fid eid result).1 := by
  cases hl : s.getFramework fid with
  | none =>
    simp only [Slave.executorExited, hl]
    exact fun fw hfw ex hex => h fw hfw ex hex
  | some f =>
    cases he : f.getExecutor eid with
    | none =>
      simp only [Slave.executorExited, hl, he]
      exact fun fw hfw ex hex => h fw hfw ex hex
    | some e =>
      simp only [Slave.executorExited, hl, he]
      by_cases hempty : eraseA f.executors eid = []
      · simp only [hempty, if_pos rfl]
        intro fw hfw ex hex
        exact h fw (mem_eraseA hfw) ex hex
      · have hempty' : (eraseA f.executors eid = []) = False := by
          simp [hempty]
        simp only [hempty', if_false]
        intro fw hfw ex hex
        rcases mem_updateA hfw with hold | heq
        · exact h fw hold ex hex
        · subst heq
          exact h (fid, f) (lookupA_mem hl) ex (mem_eraseA hex)

/-- Every executor-local property preserved by the executor operations
the handlers perform, and holding of a freshly created executor, holds
of every executor in every reachable slave state. -/
theorem execInv_reachable (P : Executor → Prop)
    (hqueue : ∀ (e : Executor) q, P e → P { e with queuedTasks := q })
    (hpid : ∀ (e : Executor) p, P e → P { e with pid := p })
    (hadd : ∀ (e : Executor) t, P e → P (e.addTask t))
    (hremove : ∀ (e : Executor) tid, P e → P (e.removeTask tid))
    (hnew : ∀ fid einfo q, P (Executor.mk fid einfo "" [] q Resources.zero))
    (h1 : ∀ (e : Executor) tid st, st.terminal = true → P e →
      P ((e.updateTaskState tid st).removeTask tid))
    (h2 : ∀ (e : Executor) tid st, st.terminal = false → P e →
      P (e.updateTaskState tid st))
    {s : Slave} (hr : Reachable s) : execInv P s := by
  induction hr with
  | init info => exact execInv_initial P info
  | newMasterDetected pid _ ih => exact execInv_newMasterDetected P ih pid
  | registerReply slaveId _ ih => exact execInv_registerReply P ih slaveId
  | runTask finfo fid pid task launchedPid _ ih =>
      exact execInv_runTask P hqueue hadd hnew ih finfo fid pid task launchedPid
  | registerExecutor sender fid eid _ ih =>
      exact execInv_registerExecutor P hpid hadd hqueue ih sender fid eid
  | statusUpdate now fid status _ ih =>
      exact execInv_statusUpdate P h1 h2 ih now fid status
  | statusUpdateAck fid slaveId tid _ ih =>
      exact execInv_statusUpdateAck P ih fid slaveId tid
  | killTask now fid tid effects _ heq ih =>
      exact execInv_killTask P hremove ih now fid tid effects heq
  | timeout now _ ih => exact execInv_timeout P ih now
  | executorExited fid eid result _ ih =>
      exact execInv_executorExited P ih fid eid result

theorem resourcesSum_addTask (e : Executor) (task : TaskDescription)
    (hP : e.resources = sumResources e.tasks) :
    (e.addTask task).resources = sumResources (e.addTask task).tasks := by
  unfold Executor.addTask
  split
  · exact hP
  · show e.resources + task.resources = sumResources (e.tasks ++ _)
    rw [sumResources_append]
    simp [sumResources, Resources.add_zero, hP]

theorem resourcesSum_removeTask (e : Executor) (tid : TaskID)
    (hP : e.resources = sumResources e.tasks) :
    (e.removeTask tid).resources = sumResources (e.removeTask tid).tasks := by
  unfold Executor.removeTask
  cases hl : lookupA e.tasks tid with
  | none => exact hP
  | some t =>
    show e.resources - t.resources = sumResources (eraseA e.tasks tid)
    rw [sumResources_eraseA hl, hP]

theorem resourcesSum_updateTaskState (e : Executor) (tid : TaskID)
    (st : TaskState) (hP : e.resources = sumResources e.tasks) :
    (e.updateTaskState tid st).resources =
      sumResources (e.updateTaskState tid st).tasks := by
  unfold Executor.updateTaskState
  cases hl : lookupA e.tasks tid with
  | none => exact hP
  | some t =>
    show e.resources = sumResources (updateA e.tasks tid _)
    rw [sumResources_updateA_same { t with state := st } hl rfl]
    exact hP

theorem nonterminal_addTask (e : Executor) (task : TaskDescription)
    (hP : ∀ tk ∈ e.tasks, tk.2.state.terminal = false) :
    ∀ tk ∈ (e.addTask task).tasks, tk.2.state.terminal = false := by
  unfold Executor.addTask
  split
  · exact hP
  · intro tk htk
    rcases List.mem_append.mp htk with hold | hnewm
    · exact hP tk hold
    · rw [List.mem_singleton.mp hnewm]
      rfl

theorem nonterminal_removeTask (e : Executor) (tid : TaskID)
    (hP : ∀ tk ∈ e.tasks, tk.2.state.terminal = false) :
    ∀ tk ∈ (e.removeTask tid).tasks, tk.2.state.terminal = false := by
  unfold Executor.removeTask
  cases hl : lookupA e.tasks tid with
  | none => exact hP
  | some t =>
    intro tk htk
    exact hP tk (mem_eraseA htk)

theorem nonterminal_update (e : Executor) (tid : TaskID) (st : TaskState)
    (hst : st.terminal = false)
    (hP : ∀ tk ∈ e.tasks, tk.2.state.terminal = false) :
    ∀ tk ∈ (e.updateTaskState tid st).tasks, tk.2.state.terminal = false := by
  unfold Executor.updateTaskState
  cases hl : lookupA e.tasks tid with
  | none => exact hP
  | some t =>
    intro tk htk
    rcases mem_updateA htk with hold | heq
    · exact hP tk hold
    · rw [heq]
      exact hst

theorem nonterminal_update_remove (e : Executor) (tid : TaskID)
    (st : TaskState)
    (hP : ∀ tk ∈ e.tasks, tk.2.state.terminal = false) :
    ∀ tk ∈ ((e.updateTaskState tid st).removeTask tid).tasks,
      tk.2.state.terminal = false := by
  unfold Executor.updateTaskState
  cases hl : lookupA e.tasks tid with
  | none => exact nonterminal_removeTask e tid hP
  | some t =>
    unfold Executor.removeTask
    simp only [lookupA_updateA_self]
    intro tk htk
    exact hP tk (mem_eraseA_updateA htk)

theorem allTasks_nonterminal {s : Slave}
    (h : execInv (fun e => ∀ tk ∈ e.tasks, tk.2.state.terminal = false) s) :
    ∀ t ∈ s.allTasks, t.state.terminal = false := by
  intro t ht
  simp only [Slave.allTasks, List.mem_flatten, List.mem_map] at ht
  obtain ⟨l1, ⟨p, hp, hl1⟩, htl1⟩ := ht
  subst hl1
  simp only [List.mem_flatten, List.mem_map] at htl1
  obtain ⟨l2, ⟨q, hq, hl2⟩, htl2⟩ := htl1
  subst hl2
  simp only [List.mem_map] at htl2
  obtain ⟨tk, htk, rfl⟩ := htl2
  exact h p hp q hq tk htk

/-- C8: `Slave::newMasterDetected` links to the new master; with the
slave id still unset it sends register_slave with the SlaveInfo,
otherwise reregister_slave with the id, the SlaveInfo and exactly the
tasks held in the executors' task maps — and in every reachable state
those are precisely non-terminal tasks, terminal tasks having been
removed when their terminal status update was processed. -/
theorem newMasterDetected_spec (s : Slave) (h : Reachable s) (pid : UPID) :
    (s.slaveId = "" →
      Slave.newMasterDetected s pid =
        ({ s with master := pid },
         [.link pid, .send pid (.registerSlave s.slave)])) ∧
    (s.slaveId ≠ "" →
      Slave.newMasterDetected s pid =
        ({ s with master := pid },
         [.link pid,
          .send pid (.reregisterSlave s.slaveId s.slave s.allTasks)]) ∧
      ∀ t ∈ s.allTasks, t.state.terminal = false) := by
  constructor
  · intro hid
    simp [Slave.newMasterDetected, hid]
  · intro hid
    refine ⟨by simp [Slave.newMasterDetected, Slave.allTasks, hid], ?_⟩
    exact allTasks_nonterminal
      (execInv_reachable (fun e => ∀ tk ∈ e.tasks, tk.2.state.terminal = false)
        (fun _ _ hP => hP) (fun _ _ hP => hP) nonterminal_addTask
        nonterminal_removeTask
        (fun _ _ _ _ htk => by simp at htk)
        (fun e tid st _ hP => nonterminal_update_remove e tid st hP)
        (fun e tid st hst hP => nonterminal_update e tid st hst hP) h)

/-- C8 witness: the theorem applied to the reachable state `exSlaveC8`
(one flushed task, slave id set by the master), re-detecting a master at
address "M2". -/
theorem newMasterDetected_spec_witness :
    exSlaveC8.slaveId ≠ "" ∧
    (Slave.newMasterDetected exSlaveC8 "M2" =
      ({ exSlaveC8 with master := "M2" },
       [.link "M2",
        .send "M2" (.reregisterSlave exSlaveC8.slaveId exSlaveC8.slave
          exSlaveC8.allTasks)]) ∧
     ∀ t ∈ exSlaveC8.allTasks, t.state.terminal = false) :=
  ⟨by decide,
   (newMasterDetected_spec exSlaveC8
     (Reachable.registerReply "S"
       (Reachable.registerExecutor "epid" "F" "E"
         (Reachable.runTask exFrameworkInfo "F" "fpid" exTaskDescription 7
           (Reachable.init exSlaveInfo))))
     "M2").2 (by decide)⟩

/-- C9: in every reachable slave state, each executor's resources field
equals the componentwise sum of the resources of the tasks in its tasks
map (queued tasks contribute only once flushed into the task set, since
the sum ranges over the task map alone). -/
theorem executor_resources_sum_invariant (s : Slave) (h : Reachable s) :
    ∀ fw ∈ s.frameworks, ∀ ex ∈ fw.2.executors,
      ex.2.resources = sumResources ex.2.tasks :=
  execInv_reachable (fun e => e.resources = sumResources e.tasks)
    (fun _ _ hP => hP) (fun _ _ hP => hP) resourcesSum_addTask
    resourcesSum_removeTask (fun _ _ _ => rfl)
    (fun e tid st _ hP =>
      resourcesSum_removeTask _ tid (resourcesSum_updateTaskState e tid st hP))
    (fun e tid st _ hP => resourcesSum_updateTaskState e tid st hP) h

/-- C9 witness: the invariant read off at the reachable state
`exSlaveC9`, whose executor "E" holds task "t1" with resources
cpus 1, mem 512 — exactly the executor's resource sum. -/
theorem executor_resources_sum_invariant_witness :
    ("F", exFrameworkC9) ∈ exSlaveC9.frameworks ∧
    ("E", exExecutorC9) ∈ exFrameworkC9.executors ∧
    exExecutorC9.resources = sumResources exExecutorC9.tasks :=
  ⟨by decide, by decide,
   executor_resources_sum_invariant exSlaveC9
     (Reachable.registerExecutor "epid" "F" "E"
       (Reachable.runTask exFrameworkInfo "F" "fpid" exTaskDescription 7
         (Reachable.init exSlaveInfo)))
     ("F", exFrameworkC9) (by decide) ("E", exExecutorC9) (by decide)⟩

end mesos
